import Mathlib

/-!
# Verification of the Amazon product-page extraction engine

Shallow embedding of `src/backend/app/web/amazon.py` (class `AmazonPageParser`)
and proofs about it.

Modelling conventions, documented once here:

* The BeautifulSoup node tree is modelled by `HNode`: an element carries its
  tag name, optional `id` attribute, its `class` attribute as a token list,
  its remaining attributes, and its children; a text node carries a string.
* `Tag.find(...)` is modelled by `findNode`: the first node in document
  (pre-)order among the *descendants* of the receiver satisfying the query.
  Queries by id, by tag, by tag plus id, and by tag plus class mirror the
  calls made in the source.  A class query matches when it equals one class
  token or the full space-joined class attribute, which is how BeautifulSoup
  treats class strings without and with spaces.
* `get_text(strip=True)` is modelled by `getTextStrip`: every descendant
  string in document order, each stripped of surrounding whitespace, joined.
* Python truthiness of a found tag (`if title_tag:`) is modelled as presence
  of the node; truthiness of a string is emptiness.
* `logger.info/warning/error` calls are modelled as a returned list of
  `Diag` values; the lazy `%s` argument is rendered into the message.
* Python exceptions that can escape a parser (`TypeError` from unpacking
  `None`, `UnboundLocalError` from reading a never-assigned local,
  `AttributeError` from calling `get_text` on `None`) are modelled with
  `Except PyErr`.
* `float(...)` applied to the price strings is modelled by `pyFloat`:
  in-range decimal values are kept exact over `ℚ`, and a decimal value at
  or beyond the IEEE binary64 overflow boundary converts to `PyFloat.inf`,
  as CPython's string-to-float does (it returns `inf`, not an error, on
  overflow); `re.search` for the three regexes
  appearing in the source is modelled by `searchPriceRun`, `searchFixed` and
  `searchPercent`, including leftmost-match order, greediness and the
  backtracking the percent pattern needs.  `\d` is modelled as the ASCII
  digits.
-/

/-- Severity of a logger call in the source (`logger.info/warning/error`). -/
inductive LogLevel where
  | info
  | warning
  | error
deriving DecidableEq, Repr

/-- One diagnostic: a logger call, with its rendered message. -/
structure Diag where
  level : LogLevel
  msg : String
deriving DecidableEq, Repr

/-- Python exceptions that can escape the parser methods. -/
inductive PyErr where
  | typeError (msg : String)
  | unboundLocal (name : String)
  | attributeError (msg : String)
deriving DecidableEq, Repr

/-- A BeautifulSoup node: an element (tag name, optional id, class tokens,
other attributes, children) or a navigable string. -/
inductive HNode where
  | elem (tag : String) (idAttr : Option String) (classAttr : List String)
      (attrs : List (String × String)) (children : List HNode)
  | text (s : String)
deriving Repr

/-- BeautifulSoup class matching: a query matches when it equals one class
token (selector without spaces) or the whole space-joined class attribute
(selector with spaces). -/
def classMatch (q : String) (cls : List String) : Bool :=
  cls.contains q || String.intercalate " " cls == q

/-- Query: any element with the given id (`find(id=...)`). -/
def hasId (i : String) : HNode → Bool
  | .elem _ (some j) _ _ _ => j == i
  | _ => false

/-- Query: element with the given tag and id (`find("div", id=...)`). -/
def hasTagId (t i : String) : HNode → Bool
  | .elem tg (some j) _ _ _ => tg == t && j == i
  | _ => false

/-- Query: element with the given tag (`find("img")`). -/
def hasTag (t : String) : HNode → Bool
  | .elem tg _ _ _ _ => tg == t
  | _ => false

/-- Query: element with the given tag and class string (`find("span", class_=...)`). -/
def hasTagClass (t c : String) : HNode → Bool
  | .elem tg _ cls _ _ => tg == t && classMatch c cls
  | _ => false

mutual
/-- `node.find(...)`: first matching node among the receiver's descendants,
in document order.  The receiver itself is not a candidate. -/
def findNode (p : HNode → Bool) : HNode → Option HNode
  | .text _ => none
  | .elem _ _ _ _ cs => findList p cs

/-- Search a forest of siblings: each node before its own descendants. -/
def findList (p : HNode → Bool) : List HNode → Option HNode
  | [] => none
  | n :: ns =>
    if p n then some n
    else
      match findNode p n with
      | some r => some r
      | none => findList p ns
end

mutual
/-- All descendant strings of a node, in document order. -/
def nodeStrings : HNode → List String
  | .text s => [s]
  | .elem _ _ _ _ cs => forestStrings cs

/-- All strings of a forest, in document order. -/
def forestStrings : List HNode → List String
  | [] => []
  | n :: ns => nodeStrings n ++ forestStrings ns
end

/-- Python `str.strip()` on the underlying character list: drop whitespace
from both ends. -/
def stripChars (cs : List Char) : List Char :=
  ((cs.dropWhile Char.isWhitespace).reverse.dropWhile Char.isWhitespace).reverse

/-- Python `str.strip()`. -/
def pyStrip (s : String) : String :=
  String.mk (stripChars s.toList)

/-- `get_text(strip=True)`: every descendant string stripped, concatenated. -/
def getTextStrip (n : HNode) : String :=
  String.join ((nodeStrings n).map pyStrip)

/-- `tag.get(attr)` / `tag.has_attr(attr)`: lookup in the attribute list. -/
def attrGet (n : HNode) (key : String) : Option String :=
  match n with
  | .elem _ _ _ attrs _ => (attrs.find? (fun kv => kv.1 == key)).map (·.2)
  | .text _ => none

/-- The character class `[\d,.]` of the price regex. -/
def isPriceChar (c : Char) : Bool :=
  c.isDigit || c == ',' || c == '.'

/-- `re.search(r"[\d,.]+", s)`: the leftmost maximal run of digits, commas
and dots, or `none` when no such character occurs. -/
def searchPriceRun : List Char → Option (List Char)
  | [] => none
  | c :: cs =>
    if isPriceChar c then some (c :: cs.takeWhile isPriceChar)
    else searchPriceRun cs

/-- Match `\d+(?:\.\d{1,2})?` at the head of the input and return the
matched text (the capture group of the fixed-amount regex): a greedy digit
run, then optionally a dot followed by one or two digits.  Nothing follows
the group in the fixed-amount regex, so greediness needs no backtracking. -/
def matchAmountAt (cs : List Char) : Option (List Char) :=
  let ds := cs.takeWhile Char.isDigit
  if ds.isEmpty then none
  else
    match cs.drop ds.length with
    | '.' :: r =>
      let fs := (r.takeWhile Char.isDigit).take 2
      if fs.isEmpty then some ds else some (ds ++ '.' :: fs)
    | _ => some ds

/-- `re.search(r"\$(\d+(?:\.\d{1,2})?)", s)`: the capture group at the
leftmost position where a dollar sign is followed by a matching number. -/
def searchFixed : List Char → Option (List Char)
  | [] => none
  | c :: cs =>
    if c = '$' then
      match matchAmountAt cs with
      | some g => some g
      | none => searchFixed cs
    else searchFixed cs

/-- Match `\d+(?:\.\d{1,2})?%` at the head of the input and return the
capture group.  After the greedy digit run the engine tries two fractional
digits, backtracks to one, then drops the optional group; shrinking the
digit run itself can never help because the character after a shorter run
is a digit, which is neither a dot nor a percent sign. -/
def matchPercentAt (cs : List Char) : Option (List Char) :=
  let ds := cs.takeWhile Char.isDigit
  if ds.isEmpty then none
  else
    match cs.drop ds.length with
    | '%' :: _ => some ds
    | '.' :: r =>
      match (r.takeWhile Char.isDigit).take 2 with
      | [a, b] =>
        if (r.drop 2).head? == some '%' then some (ds ++ ['.', a, b])
        else if (r.drop 1).head? == some '%' then some (ds ++ ['.', a])
        else none
      | [a] =>
        if (r.drop 1).head? == some '%' then some (ds ++ ['.', a])
        else none
      | _ => none
    | _ => none

/-- `re.search(r"(\d+(?:\.\d{1,2})?)%", s)`: the capture group at the
leftmost starting position where the whole pattern matches. -/
def searchPercent : List Char → Option (List Char)
  | [] => none
  | c :: cs =>
    match matchPercentAt (c :: cs) with
    | some g => some g
    | none => searchPercent cs

/-- Numeric value of a digit string. -/
def natOfDigits (ds : List Char) : Nat :=
  ds.foldl (fun n c => 10 * n + (c.toNat - 48)) 0

/-- Powers of ten, by plain Nat recursion so that terms compute. -/
def tenPow : Nat → Nat
  | 0 => 1
  | n + 1 => 10 * tenPow n

/-- Exact value of the decimal number with the given integer and fractional
digit strings, as a rational. -/
def decValue (intPart fracPart : List Char) : ℚ :=
  mkRat (Int.ofNat (natOfDigits intPart * tenPow fracPart.length + natOfDigits fracPart))
    (tenPow fracPart.length)

/-- Result of a successful CPython string-to-float conversion: a finite
double, whose value this model keeps as the exact decimal it was parsed
from, or an overflow to positive infinity.  (Negative values cannot arise
here: the regexes admit no sign.) -/
inductive PyFloat where
  | val (q : ℚ)
  | inf
deriving DecidableEq, Repr

/-- The overflow boundary of IEEE-754 binary64 for round-to-nearest-even,
`2^1024 - 2^970` (see `dblOverflowBound_eq`): the midpoint between the
largest finite double `2^1024 - 2^971` and `2^1024`.  A decimal value at
or above it converts to `inf` (the tie rounds to the even `2^1024`);
anything below rounds to a finite double.  Written as a literal so terms
compute without large-exponent reduction. -/
def dblOverflowBound : ℕ :=
  179769313486231580793728971405303415079934132710037826936173778980444968292764750946649017977587207096330286416692887910946555547851940402630657488671505820681908902000708383676273854845817711531764475730270069855571366959622842914819860834936475292719074168444365510704342711559699508093042880177904174497792

/-- Convert the parsed decimal digits to a CPython float: `inf` when the
decimal value reaches the binary64 overflow boundary, else the value
(kept exact).  The value `i.f` is at least the boundary `B` exactly when
its numerator over `10^|f|` is at least `B * 10^|f|`. -/
def pyFloatVal (intPart fracPart : List Char) : PyFloat :=
  if dblOverflowBound * tenPow fracPart.length ≤
      natOfDigits intPart * tenPow fracPart.length + natOfDigits fracPart
  then PyFloat.inf
  else PyFloat.val (decValue intPart fracPart)

/-- `float(s)` for strings over digits and dots: no dot needs at least one
digit; one dot needs a digit on at least one side; anything else (bare
dot, empty string, two dots) raises `ValueError`, modelled as `none`.
A parse that succeeds converts through `pyFloatVal`, so an out-of-range
decimal string yields `inf`, as CPython's `float` does, rather than an
error. -/
def pyFloat (cs : List Char) : Option PyFloat :=
  let intPart := cs.takeWhile Char.isDigit
  match cs.drop intPart.length with
  | [] => if intPart.isEmpty then none else some (pyFloatVal intPart [])
  | '.' :: r =>
    if r.all Char.isDigit && !(intPart.isEmpty && r.isEmpty) then
      some (pyFloatVal intPart r)
    else none
  | _ => none

/-- `float` applied to a regex capture group `\d+` or `\d+.\d{1,2}`,
which always parses. -/
def floatOfGroup (g : List Char) : ℚ :=
  let ds := g.takeWhile Char.isDigit
  match g.drop ds.length with
  | '.' :: fs => decValue ds fs
  | _ => decValue ds []

/-- The parser object: `AmazonPageParser.__init__` stores the parsed soup
and the optional user-supplied product name. -/
structure AmazonPageParser where
  soup : HNode
  user_product_name : Option String := none

/-- The lazy logging argument `f"for \x7bself.user_product_name\x7d"`:
an f-string renders `None` as the text `None`. -/
def ctxArg (p : AmazonPageParser) : String :=
  "for " ++ p.user_product_name.getD "None"

/-- Printf-style merging done by the logger: each `%s` in the template is
replaced by the argument. -/
def substPercentS (arg : String) : List Char → List Char
  | [] => []
  | '%' :: 's' :: rest => arg.toList ++ substPercentS arg rest
  | c :: rest => c :: substPercentS arg rest

/-- Render a logging template: `%s` replaced by the context argument. -/
def renderMsg (p : AmazonPageParser) (template : String) : String :=
  String.mk (substPercentS (ctxArg p) template.toList)

/-- A `logger.warning(template, ctx)` call. -/
def warnD (p : AmazonPageParser) (template : String) : Diag :=
  ⟨.warning, renderMsg p template⟩

/-- A `logger.info(template, ctx)` call. -/
def infoD (p : AmazonPageParser) (template : String) : Diag :=
  ⟨.info, renderMsg p template⟩

/-- A `logger.error(template, ctx)` call. -/
def errorD (p : AmazonPageParser) (template : String) : Diag :=
  ⟨.error, renderMsg p template⟩

/-- `AmazonPageParser.parse_product_title`. -/
def parse_product_title (p : AmazonPageParser) : List Diag × Option String :=
  match findNode (hasId "title_feature_div") p.soup with
  | some titleTag => ([], some (getTextStrip titleTag))
  | none => ([warnD p "Product title not found %s"], none)

/-- `AmazonPageParser.parse_product_price`. -/
def parse_product_price (p : AmazonPageParser) : List Diag × Option PyFloat :=
  match findNode (hasTagId "div" "corePrice_feature_div") p.soup with
  | none => ([warnD p "Product price not found %s"], none)
  | some priceElement =>
    match findNode (hasTagClass "span" "a-offscreen") priceElement with
    | none => ([warnD p "Product price not found %s"], none)
    | some priceTextTag =>
      let priceText := getTextStrip priceTextTag
      match searchPriceRun priceText.toList with
      | none => ([warnD p "Product price not found %s"], none)
      | some run =>
        match pyFloat (run.filter (fun c => c ≠ ',')) with
        | some v => ([], some v)
        | none => ([errorD p "Failed to convert price to float %s"], none)

/-- The class string of the seller message spans. -/
def sellerMsgClass : String :=
  "a-size-small offer-display-feature-text-message"

/-- Python string truthiness in `x if x else None`: empty string is falsy. -/
def strOrNone (s : String) : Option String :=
  if s = "" then none else some s

/-- Tail of `parse_product_seller` from line 88 on: the both-absent check,
then the dict literal whose value expressions read the locals
`ships_from_data` and `sold_by_data`, which are unbound (`none`) when the
corresponding element was absent. -/
def sellerFinish (diags : List Diag) (shipsData soldData : Option String) :
    List Diag × Except PyErr (Option (Option String × Option String)) :=
  if shipsData.isNone && soldData.isNone then
    (diags ++ [⟨.warning,
      "Neither ships from nor sold by elements found in the HTML content."⟩],
      .ok none)
  else
    match shipsData with
    | none => (diags, .error (.unboundLocal "ships_from_data"))
    | some s =>
      match soldData with
      | none => (diags, .error (.unboundLocal "sold_by_data"))
      | some t => (diags, .ok (some (strOrNone s, strOrNone t)))

/-- Lines 80–87 of the source: warn when the sold-by element is absent, and
extract its message-span text when present (calling `get_text` on a missing
span raises `AttributeError`). -/
def sellerSold (sold : Option HNode) (diags : List Diag)
    (shipsData : Option String) :
    List Diag × Except PyErr (Option (Option String × Option String)) :=
  let diags2 := diags ++
    (if sold.isNone then
      [⟨.warning, "Sold by element not found in the HTML content."⟩]
    else [])
  match sold with
  | none => sellerFinish diags2 shipsData none
  | some soldElement =>
    match findNode (hasTagClass "span" sellerMsgClass) soldElement with
    | none =>
      (diags2, .error (.attributeError
        "NoneType object has no attribute get_text"))
    | some sp => sellerFinish diags2 shipsData (some (getTextStrip sp))

/-- `AmazonPageParser.parse_product_seller`. -/
def parse_product_seller (p : AmazonPageParser) :
    List Diag × Except PyErr (Option (Option String × Option String)) :=
  match findNode (hasId "desktop_qualifiedBuyBox") p.soup with
  | none =>
    ([⟨.warning, "Container element not found in the HTML content."⟩],
      .ok none)
  | some container =>
    match findNode (hasId "offer-display-features") container with
    | none =>
      ([⟨.warning, "Seller container not found in the HTML content."⟩],
        .ok none)
    | some sellerContainer =>
      let ships := findNode (hasId "fulfillerInfoFeature_feature_div")
        sellerContainer
      let sold := findNode (hasId "merchantInfoFeature_feature_div")
        sellerContainer
      let diags1 :=
        if ships.isNone then
          [⟨.warning, "Ships from element not found in the HTML content."⟩]
        else []
      match ships with
      | none => sellerSold sold diags1 none
      | some shipsElement =>
        match findNode (hasTagClass "span" sellerMsgClass) shipsElement with
        | none =>
          (diags1, .error (.attributeError
            "NoneType object has no attribute get_text"))
        | some sp => sellerSold sold diags1 (some (getTextStrip sp))

/-- `AmazonPageParser.parse_product_image`. -/
def parse_product_image (p : AmazonPageParser) : List Diag × Option String :=
  match findNode (hasId "imgTagWrapperId") p.soup with
  | none => ([warnD p "Product image container not found %s"], none)
  | some container =>
    match findNode (hasTag "img") container with
    | none => ([warnD p "Product image tag not found %s"], none)
    | some imgTag =>
      match attrGet imgTag "src" with
      | none => ([warnD p "Product image tag not found %s"], none)
      | some src => ([], some src)

/-- `AmazonPageParser.check_coupon_type`: fixed-amount pattern first, then
the percentage pattern, else `None`. -/
def check_coupon_type (text : String) : Option (String × ℚ) :=
  match searchFixed text.toList with
  | some g => some ("fixed", floatOfGroup g)
  | none =>
    match searchPercent text.toList with
    | some g => some ("percentage", floatOfGroup g)
    | none => none

/-- `AmazonPageParser.parse_product_coupon`.  The unpacking
`type, discount = parsed_discount if parsed_discount else None` raises
`TypeError` when `check_coupon_type` returned `None`; the warning branch
below it is unreachable. -/
def parse_product_coupon (p : AmazonPageParser) :
    List Diag × Except PyErr (Option (String × ℚ)) :=
  match findNode (hasId "promoPriceBlockMessage_feature_div") p.soup with
  | none => ([infoD p "No coupon found %s"], .ok none)
  | some couponElement =>
    let couponMessage :=
      match findNode (hasTagClass "span" "a-color-success couponLabelText")
          couponElement with
      | none => getTextStrip couponElement
      | some msgElement => getTextStrip msgElement
    match check_coupon_type couponMessage with
    | none =>
      ([], .error (.typeError "cannot unpack non-iterable NoneType object"))
    | some (t, discount) => ([], .ok (some (t, discount)))

deriving instance DecidableEq for Except

/-- The empty document: `BeautifulSoup("", "lxml")` yields an empty but
valid tree (spec §4.1: empty input is an empty-but-valid tree, not a
failure). -/
def emptySoup : HNode :=
  .elem "[document]" none [] [] []

/-- A document whose price block holds the given price text, mirroring
`<div id="corePrice_feature_div"><span class="a-offscreen">txt</span></div>`. -/
def priceDoc (txt : String) : HNode :=
  .elem "[document]" none [] []
    [.elem "div" (some "corePrice_feature_div") [] []
      [.elem "span" none ["a-offscreen"] [] [.text txt]]]

/-- A document whose coupon block carries the given coupon label text,
mirroring `<div id="promoPriceBlockMessage_feature_div">
<span class="a-color-success couponLabelText">msg</span></div>`. -/
def couponDoc (msg : String) : HNode :=
  .elem "[document]" none [] []
    [.elem "div" (some "promoPriceBlockMessage_feature_div") [] []
      [.elem "span" none ["a-color-success", "couponLabelText"] []
        [.text msg]]]

/-- A seller message span with the given seller name. -/
def sellerSpan (s : String) : HNode :=
  .elem "span" none ["a-size-small", "offer-display-feature-text-message"] []
    [.text s]

/-- A buy box containing only a ships-from node (no sold-by node). -/
def shipsOnlyDoc (s : String) : HNode :=
  .elem "[document]" none [] []
    [.elem "div" (some "desktop_qualifiedBuyBox") [] []
      [.elem "div" (some "offer-display-features") [] []
        [.elem "div" (some "fulfillerInfoFeature_feature_div") [] []
          [sellerSpan s]]]]

/-- A buy box containing only a sold-by node (no ships-from node). -/
def soldOnlyDoc (s : String) : HNode :=
  .elem "[document]" none [] []
    [.elem "div" (some "desktop_qualifiedBuyBox") [] []
      [.elem "div" (some "offer-display-features") [] []
        [.elem "div" (some "merchantInfoFeature_feature_div") [] []
          [sellerSpan s]]]]

/-- A buy box containing both seller nodes. -/
def bothSellersDoc (s t : String) : HNode :=
  .elem "[document]" none [] []
    [.elem "div" (some "desktop_qualifiedBuyBox") [] []
      [.elem "div" (some "offer-display-features") [] []
        [.elem "div" (some "fulfillerInfoFeature_feature_div") [] []
          [sellerSpan s],
         .elem "div" (some "merchantInfoFeature_feature_div") [] []
          [sellerSpan t]]]]

/-- A price text of four hundred nines: its decimal value is far beyond
the IEEE binary64 range, so CPython float conversion yields `inf`. -/
def hugePriceText : String :=
  String.mk (List.replicate 400 '9')

example : searchPriceRun "$1,234.56".toList = some "1,234.56".toList := by decide

example : searchFixed "x $a $5.251".toList = some ['5', '.', '2', '5'] := by decide

example : searchPercent "12.345% x".toList = some ['3', '4', '5'] := by decide

example : pyFloat ".".toList = none := by decide

example : pyFloat ".5".toList = some (PyFloat.val (mkRat 1 2)) := by decide

set_option maxRecDepth 40000 in
example : pyFloat (List.replicate 400 '9') = some PyFloat.inf := by decide

example :
    parse_product_title ⟨emptySoup, none⟩ =
      ([⟨.warning, "Product title not found for None"⟩], none) := by decide

example :
    parse_product_price ⟨priceDoc "$1,234.56", none⟩ =
      ([], some (PyFloat.val (mkRat 123456 100))) := by decide

example :
    parse_product_price ⟨priceDoc "Contact seller", none⟩ =
      ([⟨.warning, "Product price not found for None"⟩], none) := by decide

example :
    parse_product_seller ⟨shipsOnlyDoc "Amazon.com", none⟩ =
      ([⟨.warning, "Sold by element not found in the HTML content."⟩],
        .error (.unboundLocal "sold_by_data")) := by decide

example :
    parse_product_seller ⟨soldOnlyDoc "BestSeller Ltd", none⟩ =
      ([⟨.warning, "Ships from element not found in the HTML content."⟩],
        .error (.unboundLocal "ships_from_data")) := by decide

example :
    parse_product_seller ⟨bothSellersDoc "Amazon.com" "BestSeller Ltd", none⟩ =
      ([], .ok (some (some "Amazon.com", some "BestSeller Ltd"))) := by decide

example :
    parse_product_coupon ⟨couponDoc "Limited time offer", none⟩ =
      ([], .error (.typeError "cannot unpack non-iterable NoneType object")) := by
  decide

example :
    parse_product_coupon ⟨couponDoc "Save $10 on this item", none⟩ =
      ([], .ok (some ("fixed", mkRat 10 1))) := by decide

example : check_coupon_type "15% off select items" =
    some ("percentage", mkRat 15 1) := by decide

example :
    parse_product_seller ⟨emptySoup, none⟩ =
      ([⟨.warning, "Container element not found in the HTML content."⟩],
        .ok none) := by decide

example :
    parse_product_image ⟨emptySoup, none⟩ =
      ([⟨.warning, "Product image container not found for None"⟩], none) := by
  decide

example :
    parse_product_coupon ⟨emptySoup, none⟩ =
      ([⟨.info, "No coupon found for None"⟩], .ok none) := by decide

/-- C1.  The claim says that a coupon message matching neither pattern
yields coupon absent with a `ClassificationFailure` diagnostic and that
extraction never reaches an unpackable intermediate state.  The code
instead executes `type, discount = parsed_discount if parsed_discount
else None`, i.e. unpacks `None`, raising `TypeError`; the warning branch
below it can never run.  At the coupon message "Limited time offer"
(the spec's own example) extraction raises instead of recording a
diagnostic. -/
theorem claim_C1_unclassified_coupon_raises :
    parse_product_coupon ⟨couponDoc "Limited time offer", none⟩ =
      ([], .error (.typeError "cannot unpack non-iterable NoneType object")) ∧
    check_coupon_type "Limited time offer" = none := by
  exact ⟨by decide, by decide⟩

/-- C2.  The claim says a document with exactly one of the ships-from and
sold-by nodes makes the seller extractor return a half-populated seller
with no diagnostic and without raising.  The code logs a warning for the
missing half and then raises `UnboundLocalError` when the dict literal
reads the never-assigned local of the absent half. -/
theorem claim_C2_single_seller_node_raises :
    parse_product_seller ⟨shipsOnlyDoc "Amazon.com", none⟩ =
      ([⟨.warning, "Sold by element not found in the HTML content."⟩],
        .error (.unboundLocal "sold_by_data")) := by
  decide

/-- C3.  The claim says null input is the only hard failure and that for
every string input all markup issues are field-local, the call returning a
partial record.  A document containing only a sold-by seller node (from
ordinary string input) makes the seller extractor raise
`UnboundLocalError`, a second hard failure that reaches the caller. -/
theorem claim_C3_markup_issue_escapes_as_error :
    parse_product_seller ⟨soldOnlyDoc "BestSeller Ltd", none⟩ =
      ([⟨.warning, "Ships from element not found in the HTML content."⟩],
        .error (.unboundLocal "ships_from_data")) := by
  decide

/-- C9.  On the empty document (empty-string HTML input) every field
extractor returns its field absent with exactly one diagnostic and no
extractor raises; the coupon probe logs only an informational message. -/
theorem claim_C9_empty_input_all_absent :
    parse_product_title ⟨emptySoup, none⟩ =
      ([⟨.warning, "Product title not found for None"⟩], none) ∧
    parse_product_price ⟨emptySoup, none⟩ =
      ([⟨.warning, "Product price not found for None"⟩], none) ∧
    parse_product_image ⟨emptySoup, none⟩ =
      ([⟨.warning, "Product image container not found for None"⟩], none) ∧
    parse_product_seller ⟨emptySoup, none⟩ =
      ([⟨.warning, "Container element not found in the HTML content."⟩],
        .ok none) ∧
    parse_product_coupon ⟨emptySoup, none⟩ =
      ([⟨.info, "No coupon found for None"⟩], .ok none) := by
  exact ⟨by decide, by decide, by decide, by decide, by decide⟩

/-- C4, counterexample.  The claim says text with no digit run yields a
`MalformedValue` diagnostic distinct from `MissingElement`.  The code's
no-digit-run branch logs the very same "Product price not found" warning
it logs when the price container is missing, while the code's only
malformed-value diagnostic ("Failed to convert price to float", at error
level) is not emitted for "Contact seller". -/
theorem claim_C4_counterexample :
    parse_product_price ⟨priceDoc "Contact seller", none⟩ =
      ([⟨.warning, "Product price not found for None"⟩], none) ∧
    parse_product_price ⟨emptySoup, none⟩ =
      ([⟨.warning, "Product price not found for None"⟩], none) ∧
    parse_product_price ⟨priceDoc "1.2.3", none⟩ =
      ([⟨.error, "Failed to convert price to float for None"⟩], none) := by
  exact ⟨by decide, by decide, by decide⟩

/-- C7, counterexample.  The claim says every classified coupon satisfies
`Fixed.amount > 0` and `0 < Percentage.percent ≤ 100`.  The classifier
performs no range check: "$0 off" yields a fixed coupon of amount 0 and
"Save 150% now" yields a percentage coupon of 150. -/
theorem claim_C7_counterexample :
    check_coupon_type "$0 off" = some ("fixed", mkRat 0 1) ∧
    ¬ (0 : ℚ) < mkRat 0 1 ∧
    check_coupon_type "Save 150% now" = some ("percentage", mkRat 150 1) ∧
    ¬ mkRat 150 1 ≤ (100 : ℚ) := by
  exact ⟨by decide, by decide, by decide, by decide⟩

/-- The overflow-bound literal in `dblOverflowBound` is exactly
`2^1024 - 2^970`. -/
theorem dblOverflowBound_eq : dblOverflowBound = 2 ^ 1024 - 2 ^ 970 := by
  norm_num [dblOverflowBound]

theorem decValue_nonneg (i f : List Char) : 0 ≤ decValue i f :=
  Rat.mkRat_nonneg (Int.ofNat_nonneg _) _

theorem floatOfGroup_nonneg (g : List Char) : 0 ≤ floatOfGroup g := by
  unfold floatOfGroup
  dsimp only
  split
  · exact decValue_nonneg _ _
  · exact decValue_nonneg _ _

/-- A converted float is either the overflow infinity or a non-negative
finite value. -/
theorem pyFloatVal_cases (i f : List Char) :
    pyFloatVal i f = PyFloat.inf ∨
      ∃ q : ℚ, pyFloatVal i f = PyFloat.val q ∧ 0 ≤ q := by
  unfold pyFloatVal
  split
  · exact Or.inl rfl
  · exact Or.inr ⟨decValue i f, rfl, decValue_nonneg i f⟩

/-- Every successful `float` conversion is the overflow infinity or a
non-negative finite value. -/
theorem pyFloat_cases (cs : List Char) (r : PyFloat)
    (h : pyFloat cs = some r) :
    r = PyFloat.inf ∨ ∃ q : ℚ, r = PyFloat.val q ∧ 0 ≤ q := by
  unfold pyFloat at h
  dsimp only at h
  split at h
  · split at h
    · exact absurd h (by simp)
    · obtain rfl : pyFloatVal _ [] = r := by injection h
      exact pyFloatVal_cases _ _
  · split at h
    · obtain rfl : pyFloatVal _ _ = r := by injection h
      exact pyFloatVal_cases _ _
    · exact absurd h (by simp)
  · exact absurd h (by simp)

/-- A list all of whose characters satisfy the predicate is its own
`takeWhile`. -/
theorem takeWhile_of_all (p : Char → Bool) :
    ∀ (l : List Char), l.all p = true → l.takeWhile p = l := by
  intro l h
  induction l with
  | nil => rfl
  | cons c cs ih =>
    simp only [List.all_cons, Bool.and_eq_true] at h
    simp [List.takeWhile_cons, h.1, ih h.2]

/-- `takeWhile` of a satisfying block followed by a failing character stops
exactly at the block. -/
theorem takeWhile_stops (p : Char → Bool) (b : Char) (hb : p b = false) :
    ∀ (ds rest : List Char), ds.all p = true →
      (ds ++ b :: rest).takeWhile p = ds := by
  intro ds rest h
  induction ds with
  | nil => simp [List.takeWhile_cons, hb]
  | cons d ds ih =>
    simp only [List.all_cons, Bool.and_eq_true] at h
    simp [List.takeWhile_cons, h.1, ih h.2]

/-- Dropping the length of the left part of an append. -/
theorem drop_len_append (ds rest : List Char) :
    (ds ++ rest).drop ds.length = rest := by
  induction ds with
  | nil => rfl
  | cons d ds ih => simp [ih]

/-- A string without digits, commas or dots has no match for the price
regex. -/
theorem searchPriceRun_none :
    ∀ (cs : List Char), cs.all (fun c => !isPriceChar c) = true →
      searchPriceRun cs = none := by
  intro cs h
  induction cs with
  | nil => rfl
  | cons c cs ih =>
    simp only [List.all_cons, Bool.and_eq_true, Bool.not_eq_true'] at h
    simp [searchPriceRun, h.1, ih h.2]

set_option maxRecDepth 40000 in
/-- C8, counterexample.  The claim says every returned price value is
finite.  CPython's string-to-float conversion returns `inf`, not an
error, for an out-of-range decimal string, and the extractor returns
that value: a document whose price text is four hundred nines (decimal
value about `10^400`, far beyond the binary64 range) makes the price
extractor return positive infinity with no diagnostic. -/
theorem claim_C8_counterexample :
    parse_product_price ⟨priceDoc hugePriceText, none⟩ =
      ([], some PyFloat.inf) := by
  decide

/-- C8, amended.  Whenever the price extractor returns a price value,
that value is non-negative; it is finite except when the parsed decimal
reaches the binary64 overflow boundary, in which case the extractor
returns positive infinity (see the counterexample). -/
theorem claim_C8_price_nonneg (p : AmazonPageParser) (ds : List Diag)
    (r : PyFloat) (h : parse_product_price p = (ds, some r)) :
    r = PyFloat.inf ∨ ∃ q : ℚ, r = PyFloat.val q ∧ 0 ≤ q := by
  unfold parse_product_price at h
  dsimp only at h
  split at h
  · simp at h
  · split at h
    · simp at h
    · split at h
      · simp at h
      · split at h
        · rename_i v hv
          injection h with h1 h2
          injection h2 with h2
          subst h2
          exact pyFloat_cases _ _ hv
        · simp at h

/-- C8, witness at a concrete document. -/
theorem claim_C8_price_nonneg_witness :
    parse_product_price ⟨priceDoc "$1,234.56", none⟩ =
      ([], some (PyFloat.val (mkRat 123456 100))) ∧
    (PyFloat.val (mkRat 123456 100) = PyFloat.inf ∨
      ∃ q : ℚ, PyFloat.val (mkRat 123456 100) = PyFloat.val q ∧ 0 ≤ q) :=
  ⟨by decide, claim_C8_price_nonneg ⟨priceDoc "$1,234.56", none⟩ []
    (PyFloat.val (mkRat 123456 100)) (by decide)⟩

/-- C5.  For a document whose price container holds a nested
`a-offscreen` price-text node whose text is a currency symbol (any
character outside the digit/comma/dot class) followed by a run of digits,
commas and dots, the extractor drops the symbol, removes the commas
(thousands separators) and parses the remaining digits with a single
decimal point to the exact decimal value, which it returns with no
diagnostic. -/
theorem claim_C5_price_locale_normalization (p : AmazonPageParser)
    (pe sp : HNode) (sym : Char) (body : List Char) (v : ℚ)
    (hpe : findNode (hasTagId "div" "corePrice_feature_div") p.soup = some pe)
    (hsp : findNode (hasTagClass "span" "a-offscreen") pe = some sp)
    (hsym : isPriceChar sym = false)
    (htext : (getTextStrip sp).toList = sym :: body)
    (hall : body.all isPriceChar = true)
    (hne : body ≠ [])
    (hv : pyFloat (body.filter (fun c => c ≠ ',')) = some (PyFloat.val v)) :
    parse_product_price p = ([], some (PyFloat.val v)) := by
  have hrun : searchPriceRun (getTextStrip sp).toList = some body := by
    rw [htext]
    cases body with
    | nil => exact absurd rfl hne
    | cons b bs =>
      simp only [List.all_cons, Bool.and_eq_true] at hall
      simp [searchPriceRun, hsym, hall.1, takeWhile_of_all _ _ hall.2]
  simp only [parse_product_price, hpe, hsp, hrun, hv]

/-- C5, witness: text `"$1,234.56"` yields exactly `1234.56`. -/
theorem claim_C5_price_locale_normalization_witness :
    parse_product_price ⟨priceDoc "$1,234.56", none⟩ =
      ([], some (PyFloat.val (mkRat 123456 100))) ∧
    mkRat 123456 100 = (1234.56 : ℚ) :=
  ⟨claim_C5_price_locale_normalization ⟨priceDoc "$1,234.56", none⟩
      (.elem "div" (some "corePrice_feature_div") [] []
        [.elem "span" none ["a-offscreen"] [] [.text "$1,234.56"]])
      (.elem "span" none ["a-offscreen"] [] [.text "$1,234.56"])
      '$' "1,234.56".toList (mkRat 123456 100)
      rfl rfl (by decide) (by decide) (by decide) (by decide) (by decide),
    by rw [Rat.mkRat_eq_div]; norm_num⟩

/-- C4, amended.  For a document whose price container and nested
price-text node are present but whose text contains no digit, comma or
dot, the extractor yields price absent and raises no exception, but the
diagnostic it emits is the same "Product price not found" warning used
when the markup anchors are missing, not a distinct malformed-value
diagnostic (the code's only malformed-value diagnostic, "Failed to
convert price to float", is emitted on a different path). -/
theorem claim_C4_no_digit_run_same_warning (p : AmazonPageParser)
    (pe sp : HNode)
    (hpe : findNode (hasTagId "div" "corePrice_feature_div") p.soup = some pe)
    (hsp : findNode (hasTagClass "span" "a-offscreen") pe = some sp)
    (hchars : (getTextStrip sp).toList.all (fun c => !isPriceChar c) = true) :
    parse_product_price p =
      ([warnD p "Product price not found %s"], none) := by
  simp only [parse_product_price, hpe, hsp,
    searchPriceRun_none _ hchars]

/-- C4, witness: the spec's own example text. -/
theorem claim_C4_no_digit_run_same_warning_witness :
    parse_product_price ⟨priceDoc "Contact seller", none⟩ =
      ([warnD ⟨priceDoc "Contact seller", none⟩ "Product price not found %s"],
        none) :=
  claim_C4_no_digit_run_same_warning ⟨priceDoc "Contact seller", none⟩
    (.elem "div" (some "corePrice_feature_div") [] []
      [.elem "span" none ["a-offscreen"] [] [.text "Contact seller"]])
    (.elem "span" none ["a-offscreen"] [] [.text "Contact seller"])
    rfl rfl (by decide)

/-- C6.  The coupon classifier checks the fixed-amount pattern first and
returns on its match, so every string in which the fixed-amount regex
matches classifies as fixed regardless of any percentage match; the two
spec examples evaluate as stated ("Save $10 on this item" to a fixed
amount of 10, "15% off select items" to a percentage of 15). -/
theorem claim_C6_ordered_precedence :
    (∀ (s : String) (g : List Char), searchFixed s.toList = some g →
      check_coupon_type s = some ("fixed", floatOfGroup g)) ∧
    check_coupon_type "Save $10 on this item" = some ("fixed", mkRat 10 1) ∧
    check_coupon_type "15% off select items" =
      some ("percentage", mkRat 15 1) := by
  refine ⟨?_, by decide, by decide⟩
  intro s g h
  unfold check_coupon_type
  rw [h]

/-- C6, witness: a message matching both patterns classifies as fixed. -/
theorem claim_C6_ordered_precedence_witness :
    check_coupon_type "Get 20% off plus $5 off" =
      some ("fixed", floatOfGroup ['5']) :=
  claim_C6_ordered_precedence.1 "Get 20% off plus $5 off" ['5'] (by decide)

/-- C7, amended.  Every value the classifier produces has exactly one of
the two variant tags and a non-negative amount; the source performs no
range check, so a fixed amount of zero and a percentage above 100 are
both possible (see the counterexample), and only non-negativity and the
single-variant shape actually hold. -/
theorem claim_C7_variant_invariant (s t : String) (a : ℚ)
    (h : check_coupon_type s = some (t, a)) :
    (t = "fixed" ∨ t = "percentage") ∧ 0 ≤ a := by
  unfold check_coupon_type at h
  cases hf : searchFixed s.toList with
  | some g =>
    rw [hf] at h
    injection h with h
    injection h with h1 h2
    subst h2
    exact ⟨Or.inl h1.symm, floatOfGroup_nonneg g⟩
  | none =>
    rw [hf] at h
    cases hp : searchPercent s.toList with
    | some g =>
      rw [hp] at h
      injection h with h
      injection h with h1 h2
      subst h2
      exact ⟨Or.inr h1.symm, floatOfGroup_nonneg g⟩
    | none =>
      rw [hp] at h
      exact absurd h (by simp)

/-- C7, witness. -/
theorem claim_C7_variant_invariant_witness :
    ("fixed" = "fixed" ∨ "fixed" = "percentage") ∧ 0 ≤ mkRat 5 1 :=
  claim_C7_variant_invariant "$5 off" "fixed" (mkRat 5 1) (by decide)

/-- Every character kept by `takeWhile` satisfies the predicate. -/
theorem takeWhile_all (p : Char → Bool) :
    ∀ (l : List Char), (l.takeWhile p).all p = true := by
  intro l
  induction l with
  | nil => rfl
  | cons c cs ih =>
    by_cases h : p c
    · simp [List.takeWhile_cons, h, ih]
    · simp [List.takeWhile_cons, h]

/-- Scaling numerator and denominator of `mkRat` by the same non-zero
factor preserves the value. -/
theorem mkRat_scale (a : ℤ) (b c : ℕ) (hb : b ≠ 0) (hc : c ≠ 0) :
    mkRat a b = mkRat (a * (c : ℤ)) (b * c) := by
  rw [Rat.mkRat_eq_div, Rat.mkRat_eq_div]
  have hbq : (b : ℚ) ≠ 0 := Nat.cast_ne_zero.mpr hb
  have hcq : (c : ℚ) ≠ 0 := Nat.cast_ne_zero.mpr hc
  push_cast
  field_simp
  ring

/-- Rescale a power-of-ten denominator of at most two digits to exactly
one hundred. -/
theorem tenPow_pos (k : ℕ) : 0 < tenPow k := by
  induction k with
  | zero => decide
  | succ n ih =>
    simp only [tenPow]
    positivity

theorem mkRat_tenPow_to_100 (A k : ℕ) (hk : k ≤ 2) :
    mkRat (Int.ofNat A) (tenPow k) =
      mkRat (Int.ofNat (A * tenPow (2 - k))) 100 := by
  have h100 : tenPow k * tenPow (2 - k) = 100 := by
    interval_cases k <;> decide
  have hq : ((tenPow k : ℕ) : ℚ) ≠ 0 :=
    Nat.cast_ne_zero.mpr (Nat.pos_iff_ne_zero.mp (tenPow_pos k))
  have hcast : ((tenPow k : ℕ) : ℚ) * ((tenPow (2 - k) : ℕ) : ℚ) = 100 := by
    exact_mod_cast h100
  rw [Rat.mkRat_eq_div, Rat.mkRat_eq_div]
  push_cast
  rw [div_eq_div_iff hq (by norm_num : (100 : ℚ) ≠ 0), ← hcast]
  push_cast [Int.ofNat_eq_natCast]
  ring

/-- A decimal value with at most two fractional digits is an integer
number of hundredths. -/
theorem decValue_hundredths (ds fs : List Char) (h : fs.length ≤ 2) :
    ∃ n : ℕ, decValue ds fs = mkRat n 100 := by
  refine ⟨(natOfDigits ds * tenPow fs.length + natOfDigits fs) *
    tenPow (2 - fs.length), ?_⟩
  unfold decValue
  exact mkRat_tenPow_to_100 _ _ h

/-- `floatOfGroup` on a pure digit group. -/
theorem floatOfGroup_digits (ds : List Char)
    (h : ds.all Char.isDigit = true) : floatOfGroup ds = decValue ds [] := by
  unfold floatOfGroup
  dsimp only
  rw [takeWhile_of_all _ _ h]
  simp [List.drop_length]

/-- `floatOfGroup` on a digit group with a dot and fractional digits. -/
theorem floatOfGroup_frac (ds fs : List Char)
    (h : ds.all Char.isDigit = true) :
    floatOfGroup (ds ++ '.' :: fs) = decValue ds fs := by
  unfold floatOfGroup
  dsimp only
  rw [takeWhile_stops Char.isDigit '.' (by decide) ds fs h,
    drop_len_append ds ('.' :: fs)]
  rfl

/-- A successful number match starts with a digit. -/
theorem matchAmountAt_head (cs g : List Char)
    (h : matchAmountAt cs = some g) :
    ∃ d rest, cs = d :: rest ∧ d.isDigit = true := by
  cases cs with
  | nil => simp [matchAmountAt] at h
  | cons c rest =>
    by_cases hd : c.isDigit
    · exact ⟨c, rest, rfl, hd⟩
    · simp [matchAmountAt, List.takeWhile_cons, hd] at h

/-- The value of a fixed-amount capture group is a whole number of
hundredths: the group is a digit run optionally followed by a dot and at
most two fractional digits. -/
theorem matchAmountAt_hundredths (cs g : List Char)
    (h : matchAmountAt cs = some g) :
    ∃ n : ℕ, floatOfGroup g = mkRat n 100 := by
  unfold matchAmountAt at h
  dsimp only at h
  split at h
  · exact absurd h (by simp)
  · split at h
    · split at h
      · injection h with h
        subst h
        rw [floatOfGroup_digits _ (takeWhile_all _ _)]
        exact decValue_hundredths _ [] (by norm_num)
      · injection h with h
        subst h
        rw [floatOfGroup_frac _ _ (takeWhile_all _ _)]
        refine decValue_hundredths _ _ ?_
        rw [List.length_take]
        exact min_le_left _ _
    · injection h with h
      subst h
      rw [floatOfGroup_digits _ (takeWhile_all _ _)]
      exact decValue_hundredths _ [] (by norm_num)

/-- Likewise for a percentage capture group: a digit run optionally
followed by a dot and one or two fractional digits. -/
theorem matchPercentAt_hundredths (cs g : List Char)
    (h : matchPercentAt cs = some g) :
    ∃ n : ℕ, floatOfGroup g = mkRat n 100 := by
  unfold matchPercentAt at h
  dsimp only at h
  split at h
  · exact absurd h (by simp)
  · split at h
    · injection h with h
      subst h
      rw [floatOfGroup_digits _ (takeWhile_all _ _)]
      exact decValue_hundredths _ [] (by norm_num)
    · split at h
      · split at h
        · injection h with h
          subst h
          rename_i a b heq hpc
          rw [show (List.takeWhile Char.isDigit cs ++ ['.', a, b]) =
            (List.takeWhile Char.isDigit cs ++ '.' :: [a, b]) from rfl,
            floatOfGroup_frac _ _ (takeWhile_all _ _)]
          exact decValue_hundredths _ _ (by norm_num)
        · split at h
          · injection h with h
            subst h
            rename_i a b heq hpc1 hpc2
            rw [show (List.takeWhile Char.isDigit cs ++ ['.', a]) =
              (List.takeWhile Char.isDigit cs ++ '.' :: [a]) from rfl,
              floatOfGroup_frac _ _ (takeWhile_all _ _)]
            exact decValue_hundredths _ _ (by norm_num)
          · exact absurd h (by simp)
      · split at h
        · injection h with h
          subst h
          rename_i a heq hpc
          rw [show (List.takeWhile Char.isDigit cs ++ ['.', a]) =
            (List.takeWhile Char.isDigit cs ++ '.' :: [a]) from rfl,
            floatOfGroup_frac _ _ (takeWhile_all _ _)]
          exact decValue_hundredths _ _ (by norm_num)
        · exact absurd h (by simp)
      · exact absurd h (by simp)
    · exact absurd h (by simp)

/-- A fixed-amount match needs a dollar sign immediately followed by a
digit somewhere in the input. -/
theorem searchFixed_dollar :
    ∀ (cs g : List Char), searchFixed cs = some g →
      ∃ pre d post, cs = pre ++ '$' :: d :: post ∧ d.isDigit = true := by
  intro cs
  induction cs with
  | nil =>
    intro g h
    simp [searchFixed] at h
  | cons c cs ih =>
    intro g h
    simp only [searchFixed] at h
    by_cases hc : c = '$'
    · rw [if_pos hc] at h
      cases hm : matchAmountAt cs with
      | some gm =>
        obtain ⟨d, rest, hrest, hd⟩ := matchAmountAt_head cs gm hm
        exact ⟨[], d, rest, by simp [hc, hrest], hd⟩
      | none =>
        rw [hm] at h
        obtain ⟨pre, d, post, hcs, hd⟩ := ih g h
        exact ⟨c :: pre, d, post, by simp [hcs], hd⟩
    · rw [if_neg hc] at h
      obtain ⟨pre, d, post, hcs, hd⟩ := ih g h
      exact ⟨c :: pre, d, post, by simp [hcs], hd⟩

/-- Every group found by the fixed-amount search is produced by the
number matcher at some position. -/
theorem searchFixed_produces :
    ∀ (cs g : List Char), searchFixed cs = some g →
      ∃ cs₁, matchAmountAt cs₁ = some g := by
  intro cs
  induction cs with
  | nil =>
    intro g h
    simp [searchFixed] at h
  | cons c cs ih =>
    intro g h
    simp only [searchFixed] at h
    by_cases hc : c = '$'
    · rw [if_pos hc] at h
      cases hm : matchAmountAt cs with
      | some gm =>
        rw [hm] at h
        injection h with h
        exact ⟨cs, by rw [hm, h]⟩
      | none =>
        rw [hm] at h
        exact ih g h
    · rw [if_neg hc] at h
      exact ih g h

/-- Every group found by the percentage search is produced by the
percentage matcher at some position. -/
theorem searchPercent_produces :
    ∀ (cs g : List Char), searchPercent cs = some g →
      ∃ cs₁, matchPercentAt cs₁ = some g := by
  intro cs
  induction cs with
  | nil =>
    intro g h
    simp [searchPercent] at h
  | cons c cs ih =>
    intro g h
    simp only [searchPercent] at h
    cases hm : matchPercentAt (c :: cs) with
    | some gm =>
      rw [hm] at h
      injection h with h
      exact ⟨c :: cs, by rw [hm, h]⟩
    | none =>
      rw [hm] at h
      exact ih g h

/-- C10.  A coupon classifies as fixed only when a literal dollar sign
immediately followed by a digit occurs in the message; messages using
other currency symbols match neither pattern; and the captured fractional
part for either variant has at most two digits, so every classified value
is a whole number of hundredths. -/
theorem claim_C10_dollar_and_two_frac_digits :
    (∀ (s : String) (a : ℚ), check_coupon_type s = some ("fixed", a) →
      ∃ pre d post, s.toList = pre ++ '$' :: d :: post ∧ d.isDigit = true) ∧
    check_coupon_type "€10 off" = none ∧
    check_coupon_type "£10 off" = none ∧
    (∀ (s t : String) (a : ℚ), check_coupon_type s = some (t, a) →
      ∃ n : ℕ, a = mkRat n 100) := by
  refine ⟨?_, by decide, by decide, ?_⟩
  · intro s a h
    unfold check_coupon_type at h
    cases hf : searchFixed s.toList with
    | some g => exact searchFixed_dollar _ _ hf
    | none =>
      rw [hf] at h
      cases hp : searchPercent s.toList with
      | some g =>
        rw [hp] at h
        injection h with h
        injection h with h1 h2
        exact absurd h1 (by decide)
      | none =>
        rw [hp] at h
        exact absurd h (by simp)
  · intro s t a h
    unfold check_coupon_type at h
    cases hf : searchFixed s.toList with
    | some g =>
      rw [hf] at h
      injection h with h
      injection h with h1 h2
      subst h2
      obtain ⟨cs₁, hm⟩ := searchFixed_produces _ _ hf
      exact matchAmountAt_hundredths _ _ hm
    | none =>
      rw [hf] at h
      cases hp : searchPercent s.toList with
      | some g =>
        rw [hp] at h
        injection h with h
        injection h with h1 h2
        subst h2
        obtain ⟨cs₁, hm⟩ := searchPercent_produces _ _ hp
        exact matchPercentAt_hundredths _ _ hm
      | none =>
        rw [hp] at h
        exact absurd h (by simp)

/-- C10, witness. -/
theorem claim_C10_dollar_and_two_frac_digits_witness :
    ∃ pre d post,
      ("Save $10 on this item").toList = pre ++ '$' :: d :: post ∧
        d.isDigit = true :=
  claim_C10_dollar_and_two_frac_digits.1 "Save $10 on this item"
    (mkRat 10 1) (by decide)
